import Mathlib

/-!
Verification of the memoized summarization pipeline of the
Scrape_db_bib_tex_pdf_generator repository.

The definitions below are a shallow embedding of `SummarizerManager.py` and
`DatabaseUtils.py`:

* Python strings are Lean `String`s; `len(s.split())` (the word-count token
  proxy) is `tokenCount`; `str.strip()` is `pyStrip`.
* The SQLite database is modelled by `DB`: the `links` table is reduced to its
  `cleaned_text` column (an `Option String` per row, `none` for SQL NULL), and
  each summary table is a named `Table` carrying its rows and whether its
  `prompt` column is declared NOT NULL (as `create_summary_tables` declares it).
* SQL statement failures are `SqlErr`; Python exceptions crossing function
  boundaries are `PyErr`.
* The OpenAI chat call is an oracle `List Message → Except Unit String`; a
  successful call is modelled as producing the response text, a failed call as
  `Except.error`.  Every attempt is appended to `SMState.llmLog`.
* The mutually recursive trio memoized section call / `_generate_summary` /
  `process_remaining_sections` can fail to terminate in Python, so the
  embedding threads a fuel counter: result `none` means the fuel ran out
  (the Python recursion is still running), `some` is the Python outcome,
  either a raised exception (`Sum.inl`) or a normal return (`Sum.inr`).
-/

/-- One element of the `messages` list sent to the chat API:
`{"role": ..., "content": ...}`. -/
structure Message where
  role : String
  content : String
deriving DecidableEq, Repr

/-- Counts maximal blocks of non-whitespace characters; the boolean says
whether we are currently inside a word. -/
def wordsAux : List Char → Bool → Nat
  | [], _ => 0
  | c :: rest, inWord =>
    if c.isWhitespace then wordsAux rest false
    else (if inWord then 0 else 1) + wordsAux rest true

/-- `len(content.split())`: the approximate token count used by
`split_message_into_sections`. -/
def tokenCount (s : String) : Nat := wordsAux s.data false

/-- `l` with leading and trailing whitespace characters removed. -/
def stripChars (l : List Char) : List Char :=
  ((l.dropWhile Char.isWhitespace).reverse.dropWhile Char.isWhitespace).reverse

/-- Python's `str.strip()`. -/
def pyStrip (s : String) : String := ⟨stripChars s.data⟩

/-- Total word count of a message list. -/
def sumTokens (msgs : List Message) : Nat :=
  (msgs.map (fun m => tokenCount m.content)).sum

/-- The loop of `split_message_into_sections`: `total` is the running
`total_tokens` counter.  A message goes to the primary section iff it fits on
the budget that is still left; otherwise it goes to the overflow section and
the counter does not advance. -/
def splitGo (budget : Nat) : List Message → Nat → List Message × List Message
  | [], _ => ([], [])
  | m :: rest, total =>
    if total + tokenCount m.content ≤ budget then
      (m :: (splitGo budget rest (total + tokenCount m.content)).1,
       (splitGo budget rest (total + tokenCount m.content)).2)
    else
      ((splitGo budget rest total).1,
       m :: (splitGo budget rest total).2)

/-- `SummarizerManager.split_message_into_sections`, with the instance field
`self.context_gpt3` made explicit as the `budget` argument. -/
def split_message_into_sections (budget : Nat) (messages : List Message) :
    List Message × List Message :=
  splitGo budget messages 0

/-- The value of `self.context_gpt3` set in `SummarizerManager.__init__`. -/
def context_gpt3 : Nat := 16385

/-- A row of one of the summary tables:
`(hash_gpt3, prompt, summary_gpt3)`; a `none` prompt is SQL NULL. -/
structure SummaryRow where
  hash_gpt3 : String
  prompt : Option String
  summary_gpt3 : String
deriving DecidableEq, Repr

/-- One summary table: its rows plus whether its `prompt` column carries a
NOT NULL constraint (it does in every table built by
`create_summary_tables`). -/
structure Table where
  promptNotNull : Bool
  rows : List SummaryRow
deriving DecidableEq, Repr

/-- The database: the `cleaned_text` column of the `links` table and the
named summary tables. -/
structure DB where
  links : List (Option String)
  tables : List (String × Table)
deriving DecidableEq, Repr

/-- SQLite errors relevant to this code. -/
inductive SqlErr where
  | noSuchTable
  | notNullViolation
  | uniqueViolation
deriving DecidableEq, Repr

/-- Python exceptions that cross function boundaries in this code. -/
inductive PyErr where
  | sql (e : SqlErr)
  | typeError
deriving DecidableEq, Repr

/-- Association-list lookup of a table by name. -/
def lookupTable : List (String × Table) → String → Option Table
  | [], _ => none
  | (n, t) :: rest, name => if n = name then some t else lookupTable rest name

/-- Find a table of the database. -/
def DB.findTable (db : DB) (name : String) : Option Table :=
  lookupTable db.tables name

/-- Replace the named table. -/
def updateTableList : List (String × Table) → String → Table → List (String × Table)
  | [], _, _ => []
  | (n, t) :: rest, name, t' =>
    if n = name then (n, t') :: rest else (n, t) :: updateTableList rest name t'

/-- Find a row by its `hash_gpt3` key. -/
def rowLookup : List SummaryRow → String → Option SummaryRow
  | [], _ => none
  | r :: rest, h => if r.hash_gpt3 = h then some r else rowLookup rest h

/-- `SELECT summary_gpt3 FROM {table} WHERE hash_gpt3 = ?`: errors when the
table does not exist, otherwise returns the (possibly absent) row. -/
def select_summary (db : DB) (table hash : String) : Except SqlErr (Option String) :=
  match db.findTable table with
  | none => .error .noSuchTable
  | some t => .ok ((rowLookup t.rows hash).map (fun r => r.summary_gpt3))

/-- `INSERT INTO {table} (hash_gpt3, summary_gpt3) VALUES (?, ?)` as issued by
`SummarizerManager.memoize_to_db`: the `prompt` column is omitted, so the
statement violates the NOT NULL constraint on every table declared by
`create_summary_tables`. -/
def insert_hash_summary (db : DB) (table hash summary : String) : Except SqlErr DB :=
  match db.findTable table with
  | none => .error .noSuchTable
  | some t =>
    if t.promptNotNull then .error .notNullViolation
    else if (rowLookup t.rows hash).isSome then .error .uniqueViolation
    else .ok ⟨db.links, updateTableList db.tables table
      ⟨t.promptNotNull, t.rows ++ [⟨hash, none, summary⟩]⟩⟩

/-- `INSERT INTO {table} (hash_gpt3, prompt, summary_gpt3) VALUES (?, ?, ?)`
as issued by `DatabaseUtils.insert_summary`. -/
def insert_full_summary (db : DB) (table hash prompt summary : String) :
    Except SqlErr DB :=
  match db.findTable table with
  | none => .error .noSuchTable
  | some t =>
    if (rowLookup t.rows hash).isSome then .error .uniqueViolation
    else .ok ⟨db.links, updateTableList db.tables table
      ⟨t.promptNotNull, t.rows ++ [⟨hash, some prompt, summary⟩]⟩⟩

/-- `DatabaseUtils.insert_summary`: checks for a duplicate hash first and
returns `False` on a duplicate; any `sqlite3.Error` (missing table, constraint
violation) is caught and also yields `False`.  Returns the possibly updated
database alongside the boolean result. -/
def insert_summary (db : DB) (table_name prompt summary prompt_hash : String) :
    Bool × DB :=
  match db.findTable table_name with
  | none => (false, db)
  | some t =>
    if (rowLookup t.rows prompt_hash).isSome then (false, db)
    else
      match insert_full_summary db table_name prompt_hash prompt summary with
      | .error _ => (false, db)
      | .ok db' => (true, db')

/-- `DatabaseUtils.fetch_cleaned_texts`: `SELECT cleaned_text FROM links WHERE
cleaned_text IS NOT NULL`, then the Python list comprehension keeps only rows
that are strings (always true in this model) whose `strip()` is truthy. -/
def fetch_cleaned_texts (db : DB) : List String :=
  (db.links.filterMap id).filter (fun s => pyStrip s ≠ "")

/-- The table names created by `DatabaseUtils.create_summary_tables`. -/
def summary_tables : List String :=
  ["relato", "contexto", "entidades", "linha_tempo", "contradicoes", "conclusao"]

/-- The section kinds iterated by `SummarizerManager.synthesize_content`. -/
def section_kinds : List String :=
  ["relato", "contexto", "entidades", "linha_tempo", "contradicoes", "conclusao",
   "questionario"]

/-- `DatabaseUtils.create_summary_tables`: `CREATE TABLE IF NOT EXISTS` for
each summary table, each with `prompt TEXT NOT NULL`. -/
def create_summary_tables (db : DB) : DB :=
  summary_tables.foldl
    (fun d name =>
      if (d.findTable name).isSome then d
      else ⟨d.links, d.tables ++ [(name, ⟨true, []⟩)]⟩)
    db

/-- The database produced by `DatabaseUtils._initialize_database` (the `links`
and `bib_references` tables are kept implicit; only their data appears in
`DB.links`). -/
def initialized_db : DB := create_summary_tables ⟨[], []⟩

/-- The description string each section method passes to
`_generate_summary`. -/
def sectionDescription (kind : String) : String :=
  if kind = "relato" then "Detailed report based on thematic analysis"
  else if kind = "contexto" then "Contextual background analysis"
  else if kind = "entidades" then
    "Entities analysis with focus on individuals, organizations, and subjects"
  else if kind = "linha_tempo" then "Timeline with logical event sequences"
  else if kind = "contradicoes" then
    "Contradictions, polarizations, and dialectical tensions"
  else if kind = "conclusao" then "Synthesized conclusion of themes with implications"
  else if kind = "questionario" then
    "Comprehensive questionnaire based on content, with high-level questions"
  else ""

/-- The instruction fragment `f"Provide a {description} for the following
texts:"`. -/
def instrContent (description : String) : String :=
  "Provide a " ++ description ++ " for the following texts:"

/-- The message list built at the top of `_generate_summary`: the instruction
first, then one `user` message per text, each stripped. -/
def mkMessages (description : String) (texts : List String) : List Message :=
  ⟨"user", instrContent description⟩ :: texts.map (fun t => ⟨"user", pyStrip t⟩)

/-- Deterministic stand-in for `hashlib.sha256(str(args)).hexdigest()`
computed by `memoize_to_db` over the `texts` argument tuple. -/
def argHash (texts : List String) : String :=
  String.intercalate "\u001F" texts

/-- The LLM: maps a message list to a response or a failure
(timeout, quota error, malformed response). -/
abbrev Oracle := List Message → Except Unit String

/-- Interpreter state: the database plus the log of LLM attempts made so far
(each with the string that attempt produced; a failed attempt produced `""`). -/
structure SMState where
  db : DB
  llmLog : List (List Message × String)
deriving DecidableEq, Repr

/-- Result of a fueled run: `none` when the fuel ran out, otherwise the raised
exception or the returned value, each with the state left behind. -/
abbrev MRes (α : Type) := Option ((PyErr × SMState) ⊕ (α × SMState))

/-- `SummarizerManager.generate_response`: one API attempt; an exception is
caught locally and yields the empty string.  The attempt is recorded in the
log either way. -/
def generate_response (oracle : Oracle) (st : SMState) (messages : List Message) :
    String × SMState :=
  match oracle messages with
  | .ok s => (s, ⟨st.db, st.llmLog ++ [(messages, s)]⟩)
  | .error _ => ("", ⟨st.db, st.llmLog ++ [(messages, "")]⟩)

mutual

/-- A section method wrapped by `SummarizerManager.memoize_to_db`: look the
hash up in the section's table (a raised `sqlite3` error propagates); on a hit
return the cached summary without touching the LLM; on a miss run
`_generate_summary` and, when the result is truthy, `INSERT (hash_gpt3,
summary_gpt3)` — whose failure also propagates. -/
def memoized_section_call (cfg : Nat) (oracle : Oracle) (table description : String)
    (fuel : Nat) (st : SMState) (texts : List String) : MRes String :=
  match fuel with
  | 0 => none
  | fuel' + 1 =>
    match select_summary st.db table (argHash texts) with
    | .error e => some (.inl (.sql e, st))
    | .ok (some cached) => some (.inr (cached, st))
    | .ok none =>
      match generate_summary cfg oracle table description fuel' st texts with
      | none => none
      | some (result, st1) =>
        if result = "" then some (.inr (result, st1))
        else
          match insert_hash_summary st1.db table (argHash texts) result with
          | .error e => some (.inl (.sql e, st1))
          | .ok db1 => some (.inr (result, ⟨db1, st1.llmLog⟩))
termination_by structural fuel

/-- `SummarizerManager._generate_summary`: build the messages, chunk them,
call the API on the primary section, recurse on the overflow section; any
exception raised by the recursion is caught here and turns the result into
the empty string.  Never raises. -/
def generate_summary (cfg : Nat) (oracle : Oracle) (table description : String)
    (fuel : Nat) (st : SMState) (texts : List String) : Option (String × SMState) :=
  match fuel with
  | 0 => none
  | fuel' + 1 =>
    match (split_message_into_sections cfg (mkMessages description texts)).2 with
    | [] =>
      some (generate_response oracle st
        (split_message_into_sections cfg (mkMessages description texts)).1)
    | s :: rest =>
      match process_remaining_sections cfg oracle table description fuel'
          (generate_response oracle st
            (split_message_into_sections cfg (mkMessages description texts)).1).2
          (s :: rest) with
      | none => none
      | some (.inl (_e, st2)) => some ("", st2)
      | some (.inr st2) =>
        some ((generate_response oracle st
          (split_message_into_sections cfg (mkMessages description texts)).1).1, st2)
termination_by structural fuel

/-- `SummarizerManager.process_remaining_sections`: one memoized recursive
call per overflow message, on the singleton list holding that message's
content; the return values are discarded.  An exception aborts the loop and
propagates. -/
def process_remaining_sections (cfg : Nat) (oracle : Oracle) (table description : String)
    (fuel : Nat) (st : SMState) (sections : List Message) :
    Option ((PyErr × SMState) ⊕ SMState) :=
  match fuel, sections with
  | _, [] => some (.inr st)
  | 0, _ :: _ => none
  | fuel' + 1, s :: rest =>
    match memoized_section_call cfg oracle table description fuel' st [s.content] with
    | none => none
    | some (.inl e) => some (.inl e)
    | some (.inr (_res, st1)) =>
      process_remaining_sections cfg oracle table description fuel' st1 rest
termination_by structural fuel

end

/-- The call `self.db_utils.insert_summary(prompt_name, summary)` in
`synthesize_content`: it supplies 2 of the 4 required positional arguments of
`DatabaseUtils.insert_summary`, so Python raises `TypeError` before the callee
body runs. -/
def call_insert_summary_two_args : Except PyErr (Bool × DB) :=
  .error .typeError

/-- The `for prompt_name in [...]` loop of `synthesize_content`, together with
the single `try`/`except` wrapped around it: the first exception — raised by a
section method or by the mis-called `insert_summary` — ends the whole loop
and the summaries gathered so far are returned. -/
def synth_loop (cfg : Nat) (oracle : Oracle) (fuel : Nat) (entries : List String) :
    List String → SMState → List String → Option (List String × SMState)
  | [], st, acc => some (acc, st)
  | kind :: rest, st, acc =>
    match memoized_section_call cfg oracle kind (sectionDescription kind) fuel st entries with
    | none => none
    | some (.inl (_e, st1)) => some (acc, st1)
    | some (.inr (s, st1)) =>
      match call_insert_summary_two_args with
      | .error _ => some (acc ++ [s], st1)
      | .ok _ => synth_loop cfg oracle fuel entries rest st1 (acc ++ [s])

/-- `SummarizerManager.synthesize_content`: fetch the cleaned texts, then —
because `fetch_cleaned_texts` returns plain strings — `entry[0]` keeps only
the first character of each text; run the section loop over the seven kinds.
Always returns a list rather than raising. -/
def synthesize_content (cfg : Nat) (oracle : Oracle) (fuel : Nat) (st : SMState) :
    Option (List String × SMState) :=
  let entries := (fetch_cleaned_texts st.db).map (fun s => (⟨s.data.take 1⟩ : String))
  synth_loop cfg oracle fuel entries section_kinds st []

/-- A database holding just an empty `relato` table with the schema that
`create_summary_tables` declares (NOT NULL prompt). -/
def relato_only_db : DB := ⟨[], [("relato", ⟨true, []⟩)]⟩

/-- Non-termination of the overflow recursion on a fragment whose word count
(2) plus the instruction's word count (7) exceeds the budget (8): for every
fuel the interpreter is still running.  The LLM call log is existentially
arbitrary because the diverging run keeps extending it. -/
def oversized_call_diverges : Prop :=
  ∀ (oracle : Oracle) (fuel : Nat) (log : List (List Message × String)),
    memoized_section_call 8 oracle "relato" "D" fuel ⟨relato_only_db, log⟩ ["w1 w2"] =
      none

/-- An LLM stub answering `B` to the prompt holding the second source text
and `A` to anything else. -/
def c2_oracle : Oracle := fun msgs =>
  .ok (if msgs.any (fun m => m.content = "b1 b2 b3 b4 b5 b6") then "B" else "A")

/-- Projection of an interpreter outcome to the returned summary paired with
the list of LLM responses produced along the run. -/
def summary_and_responses : MRes String → Option (Option (String × List String))
  | none => none
  | some (.inl _) => some none
  | some (.inr (s, st)) => some (some (s, st.llmLog.map Prod.snd))

/-- An LLM stub that always succeeds with `A`. -/
def constant_oracle : Oracle := fun _ => .ok "A"

/-- An initialized database whose ContentStore holds one article text. -/
def c3_db : DB := ⟨[some "Alpha event."], initialized_db.tables⟩

/-! ## Chunker lemmas -/

theorem sumTokens_nil : sumTokens [] = 0 := rfl

theorem sumTokens_cons (m : Message) (l : List Message) :
    sumTokens (m :: l) = tokenCount m.content + sumTokens l := by
  simp [sumTokens]

theorem splitGo_sum_le (budget : Nat) :
    ∀ (msgs : List Message) (total : Nat), total ≤ budget →
      total + sumTokens (splitGo budget msgs total).1 ≤ budget := by
  intro msgs
  induction msgs with
  | nil => intro total h; simpa [splitGo, sumTokens] using h
  | cons m rest ih =>
    intro total h
    simp only [splitGo]
    split_ifs with hfit
    · have := ih (total + tokenCount m.content) hfit
      simp only [sumTokens_cons]
      omega
    · exact ih total h

theorem splitGo_oversized (budget : Nat) :
    ∀ (msgs : List Message) (total : Nat) (m : Message), m ∈ msgs →
      budget < tokenCount m.content → m ∈ (splitGo budget msgs total).2 := by
  intro msgs
  induction msgs with
  | nil => intro total m hm; exact absurd hm (List.not_mem_nil m)
  | cons a rest ih =>
    intro total m hm hbig
    simp only [splitGo]
    split_ifs with hfit
    · rcases List.mem_cons.mp hm with rfl | hm'
      · omega
      · exact ih _ m hm' hbig
    · rcases List.mem_cons.mp hm with rfl | hm'
      · exact List.mem_cons_self m _
      · exact List.mem_cons_of_mem a (ih _ m hm' hbig)

theorem splitGo_sublist (budget : Nat) :
    ∀ (msgs : List Message) (total : Nat),
      (splitGo budget msgs total).1.Sublist msgs ∧
      (splitGo budget msgs total).2.Sublist msgs := by
  intro msgs
  induction msgs with
  | nil => intro total; exact ⟨List.Sublist.refl _, List.Sublist.refl _⟩
  | cons a rest ih =>
    intro total
    simp only [splitGo]
    split_ifs with hfit
    · exact ⟨(ih _).1.cons₂ a, (ih _).2.cons a⟩
    · exact ⟨(ih _).1.cons a, (ih _).2.cons₂ a⟩

theorem splitGo_count (budget : Nat) :
    ∀ (msgs : List Message) (total : Nat) (m : Message),
      (splitGo budget msgs total).1.count m + (splitGo budget msgs total).2.count m =
        msgs.count m := by
  intro msgs
  induction msgs with
  | nil => intro total m; rfl
  | cons a rest ih =>
    intro total m
    simp only [splitGo]
    split_ifs with hfit
    · simp only [List.count_cons]
      have := ih (total + tokenCount a.content) m
      omega
    · simp only [List.count_cons]
      have := ih total m
      omega

/-! ## Claim C1 -/

/-- C1: for every budget and fragment sequence, the word-count sum of the
primary batch returned by `split_message_into_sections` is at most the
budget, and every fragment whose own word count exceeds the budget is a
member of the overflow batch (present there unmodified, hence neither dropped
nor truncated). -/
theorem C1_chunker_budget_invariant (budget : Nat) (msgs : List Message) :
    sumTokens (split_message_into_sections budget msgs).1 ≤ budget ∧
    ∀ m ∈ msgs, budget < tokenCount m.content →
      m ∈ (split_message_into_sections budget msgs).2 := by
  constructor
  · have h := splitGo_sum_le budget msgs 0 (Nat.zero_le _)
    simpa [split_message_into_sections] using h
  · intro m hm hbig
    exact splitGo_oversized budget msgs 0 m hm hbig

/-- Witness for C1 at the concrete budget 2 and a single 3-word fragment. -/
theorem C1_chunker_budget_invariant_witness :
    sumTokens (split_message_into_sections 2 [⟨"user", "a b c"⟩]).1 ≤ 2 ∧
    (⟨"user", "a b c"⟩ : Message) ∈ (split_message_into_sections 2 [⟨"user", "a b c"⟩]).2 :=
  ⟨(C1_chunker_budget_invariant 2 [⟨"user", "a b c"⟩]).1,
   (C1_chunker_budget_invariant 2 [⟨"user", "a b c"⟩]).2 ⟨"user", "a b c"⟩
     (by decide) (by decide)⟩

/-! ## Claim C7 -/

/-- Input refuting the claim that the primary batch is a maximal-length
prefix of the input: with budget 2, the 3-word first fragment overflows and
the 1-word second fragment is still selected. -/
def c7msgs : List Message := [⟨"user", "a b c"⟩, ⟨"user", "x"⟩]

/-- C7 counterexample: the primary batch of the chunker is not a prefix of
the input (for no `k` does it equal the first `k` input fragments), refuting
"primary is a maximal-length prefix-consistent subset": here the primary
batch is the second fragment alone. -/
theorem C7_counterexample :
    ¬ ∃ k, (split_message_into_sections 2 c7msgs).1 = c7msgs.take k := by
  rintro ⟨k, hk⟩
  match k with
  | 0 => exact absurd hk (by decide)
  | 1 => exact absurd hk (by decide)
  | (n + 2) =>
    rw [List.take_of_length_le (by simp [c7msgs])] at hk
    exact absurd hk (by decide)

/-- C7 amended: the chunker partitions the input into a greedy in-order
in-budget subsequence and its complement — both outputs preserve the relative
input order (they are sublists), together they contain every input fragment
exactly as often as the input does, the primary batch stays within the
budget, and the empty input yields two empty lists; but the primary batch is
the greedy in-order selection, not necessarily a prefix of the input. -/
theorem C7_amended (budget : Nat) (msgs : List Message) :
    (split_message_into_sections budget msgs).1.Sublist msgs ∧
    (split_message_into_sections budget msgs).2.Sublist msgs ∧
    (∀ m : Message,
      (split_message_into_sections budget msgs).1.count m +
        (split_message_into_sections budget msgs).2.count m = msgs.count m) ∧
    (msgs = [] → split_message_into_sections budget msgs = ([], [])) ∧
    sumTokens (split_message_into_sections budget msgs).1 ≤ budget := by
  refine ⟨(splitGo_sublist budget msgs 0).1, (splitGo_sublist budget msgs 0).2,
    fun m => splitGo_count budget msgs 0 m, ?_, ?_⟩
  · rintro rfl; rfl
  · have h := splitGo_sum_le budget msgs 0 (Nat.zero_le _)
    simpa [split_message_into_sections] using h

/-- Witness for C7's amended statement at budget 2 and the two-fragment
input, instantiating the count equation at the oversized fragment. -/
theorem C7_amended_witness :
    (split_message_into_sections 2 c7msgs).1.Sublist c7msgs ∧
    (split_message_into_sections 2 c7msgs).1.count ⟨"user", "a b c"⟩ +
      (split_message_into_sections 2 c7msgs).2.count ⟨"user", "a b c"⟩ =
      c7msgs.count ⟨"user", "a b c"⟩ :=
  ⟨(C7_amended 2 c7msgs).1, (C7_amended 2 c7msgs).2.2.1 ⟨"user", "a b c"⟩⟩

/-! ## Word-count lemmas: stripping does not change the word count -/

theorem wordsAux_all_ws : ∀ (l : List Char), (∀ c ∈ l, c.isWhitespace) →
    ∀ b, wordsAux l b = 0 := by
  intro l
  induction l with
  | nil => intro _ b; rfl
  | cons c rest ih =>
    intro h b
    have hc : c.isWhitespace := h c (List.mem_cons_self c rest)
    simp [wordsAux, hc]
    exact ih (fun x hx => h x (List.mem_cons_of_mem c hx)) false

theorem wordsAux_append_ws (l2 : List Char) (h : ∀ c ∈ l2, c.isWhitespace) :
    ∀ (l : List Char) (b : Bool), wordsAux (l ++ l2) b = wordsAux l b := by
  intro l
  induction l with
  | nil =>
    intro b
    simpa [wordsAux] using wordsAux_all_ws l2 h b
  | cons c rest ih =>
    intro b
    simp only [List.cons_append, wordsAux, List.append_eq]
    split_ifs with hc
    · exact ih false
    all_goals rw [ih true]

theorem wordsAux_dropWhile_ws : ∀ (l : List Char),
    wordsAux (l.dropWhile Char.isWhitespace) false = wordsAux l false := by
  intro l
  induction l with
  | nil => rfl
  | cons c rest ih =>
    by_cases hc : c.isWhitespace
    · simp [List.dropWhile_cons, hc, wordsAux, ih]
    · simp [List.dropWhile_cons, hc]

theorem mem_takeWhile_ws : ∀ (l : List Char) (c : Char),
    c ∈ l.takeWhile Char.isWhitespace → c.isWhitespace := by
  intro l
  induction l with
  | nil => intro c hc; exact absurd hc (List.not_mem_nil c)
  | cons a rest ih =>
    intro c hc
    by_cases ha : a.isWhitespace
    · rw [List.takeWhile_cons_of_pos ha] at hc
      rcases List.mem_cons.mp hc with rfl | hc'
      · exact ha
      · exact ih c hc'
    · rw [List.takeWhile_cons_of_neg ha] at hc
      exact absurd hc (List.not_mem_nil c)

theorem dropWhile_eq_strip_append (l : List Char) :
    l.dropWhile Char.isWhitespace =
      stripChars l ++
        ((l.dropWhile Char.isWhitespace).reverse.takeWhile Char.isWhitespace).reverse := by
  have h := List.takeWhile_append_dropWhile
    (p := Char.isWhitespace) (l := (l.dropWhile Char.isWhitespace).reverse)
  calc l.dropWhile Char.isWhitespace
      = (l.dropWhile Char.isWhitespace).reverse.reverse := by rw [List.reverse_reverse]
    _ = (((l.dropWhile Char.isWhitespace).reverse.takeWhile Char.isWhitespace) ++
          ((l.dropWhile Char.isWhitespace).reverse.dropWhile Char.isWhitespace)).reverse := by
          rw [h]
    _ = stripChars l ++
          ((l.dropWhile Char.isWhitespace).reverse.takeWhile Char.isWhitespace).reverse := by
          rw [List.reverse_append]; rfl

/-- Stripping a string does not change its word count: Python's
`len(s.strip().split()) == len(s.split())`. -/
theorem tokenCount_pyStrip (s : String) : tokenCount (pyStrip s) = tokenCount s := by
  show wordsAux (stripChars s.data) false = wordsAux s.data false
  have htrail : ∀ c ∈ ((s.data.dropWhile Char.isWhitespace).reverse.takeWhile
      Char.isWhitespace).reverse, c.isWhitespace := by
    intro c hc
    exact mem_takeWhile_ws _ c (List.mem_reverse.mp hc)
  calc wordsAux (stripChars s.data) false
      = wordsAux (stripChars s.data ++
          ((s.data.dropWhile Char.isWhitespace).reverse.takeWhile
            Char.isWhitespace).reverse) false := (wordsAux_append_ws _ htrail _ _).symm
    _ = wordsAux (s.data.dropWhile Char.isWhitespace) false := by
          rw [← dropWhile_eq_strip_append]
    _ = wordsAux s.data false := wordsAux_dropWhile_ws s.data

/-- A string of at most one character holds at most one word. -/
theorem tokenCount_take_one (s : String) :
    tokenCount (⟨s.data.take 1⟩ : String) ≤ 1 := by
  show wordsAux (s.data.take 1) false ≤ 1
  match s.data with
  | [] => exact Nat.zero_le 1
  | c :: rest =>
    show wordsAux [c] false ≤ 1
    by_cases hc : c.isWhitespace <;> simp [wordsAux, hc]

/-! ## Database lemmas -/

theorem lookupTable_update_self :
    ∀ (ts : List (String × Table)) (name : String) (t t' : Table),
      lookupTable ts name = some t →
      lookupTable (updateTableList ts name t') name = some t' := by
  intro ts
  induction ts with
  | nil => intro name t t' h; exact absurd h (by simp [lookupTable])
  | cons p rest ih =>
    intro name t t' h
    obtain ⟨n, t0⟩ := p
    by_cases hn : n = name
    · subst hn
      simp [updateTableList, lookupTable]
    · simp only [lookupTable, if_neg hn] at h
      simp only [updateTableList, if_neg hn, lookupTable, if_neg hn]
      exact ih name t t' h

theorem rowLookup_append (l1 l2 : List SummaryRow) (h : String)
    (hnone : rowLookup l1 h = none) :
    rowLookup (l1 ++ l2) h = rowLookup l2 h := by
  induction l1 with
  | nil => rfl
  | cons r rest ih =>
    by_cases hr : r.hash_gpt3 = h
    · simp [rowLookup, hr] at hnone
    · simp only [rowLookup, if_neg hr] at hnone
      simpa [rowLookup, hr] using ih hnone

theorem rowLookup_none_not_mem (l : List SummaryRow) (h : String)
    (hnone : rowLookup l h = none) : ∀ r ∈ l, r.hash_gpt3 ≠ h := by
  induction l with
  | nil => intro r hr; exact absurd hr (List.not_mem_nil r)
  | cons a rest ih =>
    intro r hr
    by_cases ha : a.hash_gpt3 = h
    · simp [rowLookup, ha] at hnone
    · simp only [rowLookup, if_neg ha] at hnone
      rcases List.mem_cons.mp hr with rfl | hr'
      · exact ha
      · exact ih hnone r hr'

/-! ## Claim C4 -/

/-- C4 counterexample: for the table name `questionario` — a table the
initializer never creates — the FIRST `insert_summary` call already returns
`false` and persists nothing, refuting "for every table name ... the first
call persists and returns true". -/
theorem C4_counterexample :
    (insert_summary initialized_db "questionario" "p" "s" "h").1 = false ∧
    (insert_summary initialized_db "questionario" "p" "s" "h").2 = initialized_db := by
  decide

/-- C4 amended: for every table that exists in the database and holds no
record with the given fingerprint, two successive `insert_summary` calls
with the same fingerprint leave exactly one persisted record for it: the
first persists and returns `true`, the second is a no-op returning `false`.
(For a table name absent from the database — such as `questionario` — both
calls fail with `false` and persist nothing.) -/
theorem C4_amended (db : DB) (table prompt summary hash : String) (t : Table)
    (hT : db.findTable table = some t)
    (hfresh : rowLookup t.rows hash = none) :
    (insert_summary db table prompt summary hash).1 = true ∧
    (insert_summary (insert_summary db table prompt summary hash).2
        table prompt summary hash).1 = false ∧
    (insert_summary (insert_summary db table prompt summary hash).2
        table prompt summary hash).2 =
      (insert_summary db table prompt summary hash).2 ∧
    ∃ t1 : Table,
      (insert_summary db table prompt summary hash).2.findTable table = some t1 ∧
      (t1.rows.filter (fun r => r.hash_gpt3 = hash)).length = 1 := by
  have hrow : rowLookup (t.rows ++ [⟨hash, some prompt, summary⟩]) hash =
      some ⟨hash, some prompt, summary⟩ := by
    rw [rowLookup_append t.rows _ hash hfresh]
    simp [rowLookup]
  have hfirst : insert_summary db table prompt summary hash =
      (true, ⟨db.links, updateTableList db.tables table
        ⟨t.promptNotNull, t.rows ++ [⟨hash, some prompt, summary⟩]⟩⟩) := by
    simp [insert_summary, insert_full_summary, hT, hfresh]
  have hT1 : (⟨db.links, updateTableList db.tables table
      ⟨t.promptNotNull, t.rows ++ [⟨hash, some prompt, summary⟩]⟩⟩ : DB).findTable table =
      some ⟨t.promptNotNull, t.rows ++ [⟨hash, some prompt, summary⟩]⟩ :=
    lookupTable_update_self db.tables table t _ hT
  refine ⟨by rw [hfirst], ?_, ?_, ?_⟩
  · rw [hfirst]
    simp [insert_summary, hT1, hrow]
  · rw [hfirst]
    simp [insert_summary, hT1, hrow]
  · refine ⟨⟨t.promptNotNull, t.rows ++ [⟨hash, some prompt, summary⟩]⟩, ?_, ?_⟩
    · rw [hfirst]; exact hT1
    · have hnil : t.rows.filter (fun r => r.hash_gpt3 = hash) = [] := by
        rw [List.filter_eq_nil_iff]
        intro r hr
        simpa using rowLookup_none_not_mem t.rows hash hfresh r hr
      simp [List.filter_append, hnil]

/-- Witness for C4's amended statement on a fresh `relato` table. -/
theorem C4_amended_witness :
    (insert_summary ⟨[], [("relato", ⟨true, []⟩)]⟩ "relato" "p" "s" "h").1 = true ∧
    (insert_summary (insert_summary ⟨[], [("relato", ⟨true, []⟩)]⟩
        "relato" "p" "s" "h").2 "relato" "p" "s" "h").1 = false :=
  ⟨(C4_amended ⟨[], [("relato", ⟨true, []⟩)]⟩ "relato" "p" "s" "h" ⟨true, []⟩
      (by decide) (by decide)).1,
   (C4_amended ⟨[], [("relato", ⟨true, []⟩)]⟩ "relato" "p" "s" "h" ⟨true, []⟩
      (by decide) (by decide)).2.1⟩

/-! ## Claim C9 -/

/-- C9 counterexample: a stored, non-NULL cleaned text consisting only of
whitespace is filtered out by `fetch_cleaned_texts`, refuting "returns the
raw stored text of every non-absent article verbatim, with no filtering and
no validation". -/
theorem C9_counterexample :
    fetch_cleaned_texts ⟨[some "   "], []⟩ = [] ∧
    some "   " ∈ (⟨[some "   "], []⟩ : DB).links := by
  decide

/-- C9 amended: `fetch_cleaned_texts` returns, verbatim and in storage order,
exactly those stored non-NULL cleaned texts whose `strip()` is non-empty;
texts that are empty or whitespace-only are filtered out. -/
theorem C9_amended (db : DB) :
    (fetch_cleaned_texts db).Sublist (db.links.filterMap id) ∧
    (∀ s : String, some s ∈ db.links → pyStrip s ≠ "" → s ∈ fetch_cleaned_texts db) ∧
    (∀ s ∈ fetch_cleaned_texts db, some s ∈ db.links ∧ pyStrip s ≠ "") := by
  refine ⟨List.filter_sublist _, ?_, ?_⟩
  · intro s hs hstrip
    exact List.mem_filter.mpr
      ⟨List.mem_filterMap.mpr ⟨some s, hs, rfl⟩, by simpa using hstrip⟩
  · intro s hs
    have h := List.mem_filter.mp hs
    obtain ⟨a, ha, hid⟩ := List.mem_filterMap.mp h.1
    constructor
    · cases hid; exact ha
    · simpa using h.2

/-- Witness for C9's amended statement: a verbatim text survives the fetch. -/
theorem C9_amended_witness :
    "hi" ∈ fetch_cleaned_texts ⟨[some "hi", some "  ", none], []⟩ :=
  (C9_amended ⟨[some "hi", some "  ", none], []⟩).2.1 "hi" (by decide) (by decide)

/-! ## Claim C10 -/

/-- C10: the seven section kinds iterated by `synthesize_content` include
`questionario`, the six tables built by `create_summary_tables` do not, and
every memoized call for the `questionario` section against a database lacking
that table raises `no such table` at the lookup step. -/
theorem C10_questionario_table_missing :
    ("questionario" ∈ section_kinds ∧ "questionario" ∉ summary_tables) ∧
    ∀ (cfg : Nat) (oracle : Oracle) (description : String) (n : Nat)
      (st : SMState) (texts : List String),
      st.db.findTable "questionario" = none →
      memoized_section_call cfg oracle "questionario" description (n + 1) st texts =
        some (.inl (.sql .noSuchTable, st)) := by
  refine ⟨by decide, ?_⟩
  intro cfg oracle description n st texts hnone
  rw [memoized_section_call]
  simp [select_summary, hnone]

/-- Witness for C10 on the freshly initialized database. -/
theorem C10_questionario_table_missing_witness :
    memoized_section_call 16385 (fun _ => .ok "A") "questionario"
        (sectionDescription "questionario") 1 ⟨initialized_db, []⟩ [] =
      some (.inl (.sql .noSuchTable, ⟨initialized_db, []⟩)) :=
  C10_questionario_table_missing.2 16385 (fun _ => .ok "A")
    (sectionDescription "questionario") 0 ⟨initialized_db, []⟩ [] (by decide)

/-! ## Claim C8 -/

/-- C8: a failed LLM call (timeout, malformed response, quota error) is
recovered locally: `generate_response` returns the empty string after exactly
one attempt (no retry, one new log entry), and — when the primary batch is
the whole prompt — `_generate_summary` returns that empty summary normally
instead of raising, so the failure is not fatal to the run. -/
theorem C8_llm_failure_recovered :
    (∀ (oracle : Oracle) (st : SMState) (messages : List Message),
      oracle messages = .error () →
      generate_response oracle st messages =
        ("", ⟨st.db, st.llmLog ++ [(messages, "")]⟩)) ∧
    (∀ (cfg : Nat) (oracle : Oracle) (table description : String) (fuel : Nat)
      (st : SMState) (texts : List String),
      (split_message_into_sections cfg (mkMessages description texts)).2 = [] →
      oracle (split_message_into_sections cfg (mkMessages description texts)).1 =
        .error () →
      generate_summary cfg oracle table description (fuel + 1) st texts =
        some ("", ⟨st.db, st.llmLog ++
          [((split_message_into_sections cfg (mkMessages description texts)).1, "")]⟩)) := by
  constructor
  · intro oracle st messages h
    simp [generate_response, h]
  · intro cfg oracle table description fuel st texts hov h
    simp only [generate_summary]
    simp [hov, generate_response, h]

/-- Witness for C8 with a failing oracle on a one-message prompt. -/
theorem C8_llm_failure_recovered_witness :
    generate_response (fun _ => .error ()) ⟨initialized_db, []⟩ [⟨"user", "hi"⟩] =
      ("", ⟨initialized_db, [([⟨"user", "hi"⟩], "")]⟩) :=
  C8_llm_failure_recovered.1 (fun _ => .error ()) ⟨initialized_db, []⟩
    [⟨"user", "hi"⟩] rfl

/-! ## Fuel lemmas: the recursion completes when every fragment fits
alongside the instruction within the budget -/

theorem split_two_fit (cfg : Nat) (i u : Message)
    (h1 : tokenCount i.content ≤ cfg)
    (h2 : tokenCount i.content + tokenCount u.content ≤ cfg) :
    split_message_into_sections cfg [i, u] = ([i, u], []) := by
  simp [split_message_into_sections, splitGo, Nat.zero_add, h1, h2]

theorem overflow_sublist_tail (budget : Nat) (i : Message) (rest : List Message)
    (h1 : tokenCount i.content ≤ budget) :
    (split_message_into_sections budget (i :: rest)).2.Sublist rest := by
  show (splitGo budget (i :: rest) 0).2.Sublist rest
  simp only [splitGo, Nat.zero_add, if_pos h1]
  exact (splitGo_sublist budget rest _).2

theorem memoized_unit_isSome (cfg : Nat) (oracle : Oracle) (table description : String)
    (fuel : Nat) (st : SMState) (u : String)
    (hf : 2 ≤ fuel)
    (h1 : tokenCount (instrContent description) ≤ cfg)
    (h2 : tokenCount (instrContent description) + tokenCount u ≤ cfg) :
    (memoized_section_call cfg oracle table description fuel st [u]).isSome := by
  obtain ⟨m, rfl⟩ : ∃ m, fuel = m + 2 := ⟨fuel - 2, by omega⟩
  show (memoized_section_call cfg oracle table description (Nat.succ (Nat.succ m))
    st [u]).isSome
  rw [memoized_section_call.eq_2]
  rcases hsel : select_summary st.db table (argHash [u]) with e | o
  · simp
  rcases o with _ | c
  · have hsplit : split_message_into_sections cfg (mkMessages description [u]) =
        (mkMessages description [u], []) := by
      have h2' : tokenCount (⟨"user", instrContent description⟩ : Message).content +
          tokenCount (⟨"user", pyStrip u⟩ : Message).content ≤ cfg := by
        show tokenCount (instrContent description) + tokenCount (pyStrip u) ≤ cfg
        rw [tokenCount_pyStrip]
        exact h2
      have := split_two_fit cfg ⟨"user", instrContent description⟩
        ⟨"user", pyStrip u⟩ h1 h2'
      simpa [mkMessages] using this
    have hgen : generate_summary cfg oracle table description (Nat.succ m) st [u] =
        some (generate_response oracle st (mkMessages description [u])) := by
      rw [generate_summary.eq_2]
      simp only [hsplit]
    simp only [hgen]
    rcases generate_response oracle st (mkMessages description [u]) with ⟨result, st1⟩
    by_cases hres : result = ""
    · simp [hres]
    · simp only [hres, if_neg hres, ite_false]
      rcases hins : insert_hash_summary st1.db table (argHash [u]) result with e | db1 <;>
        simp [hins]
  · simp

theorem process_isSome (cfg : Nat) (oracle : Oracle) (table description : String)
    (h1 : tokenCount (instrContent description) ≤ cfg) :
    ∀ (sections : List Message) (fuel : Nat) (st : SMState),
      (∀ m ∈ sections,
        tokenCount (instrContent description) + tokenCount m.content ≤ cfg) →
      sections.length + 2 ≤ fuel →
      (process_remaining_sections cfg oracle table description fuel st sections).isSome := by
  intro sections
  induction sections with
  | nil =>
    intro fuel st _ _
    rw [process_remaining_sections.eq_1]
    rfl
  | cons s rest ih =>
    intro fuel st hall hf
    obtain ⟨p, rfl⟩ : ∃ p, fuel = p + 1 := ⟨fuel - 1, by omega⟩
    show (process_remaining_sections cfg oracle table description (Nat.succ p)
      st (s :: rest)).isSome
    rw [process_remaining_sections.eq_3]
    have hu := memoized_unit_isSome cfg oracle table description p st s.content
      (by simp at hf; omega) h1 (hall s (List.mem_cons_self s rest))
    obtain ⟨r, hr⟩ := Option.isSome_iff_exists.mp hu
    rw [hr]
    rcases r with e | ⟨res, st1⟩
    · rfl
    · exact ih p st1 (fun m hm => hall m (List.mem_cons_of_mem s hm))
        (by simp at hf ⊢; omega)

theorem memoized_top_isSome (cfg : Nat) (oracle : Oracle) (table description : String)
    (fuel : Nat) (st : SMState) (texts : List String)
    (h1 : tokenCount (instrContent description) ≤ cfg)
    (h2 : ∀ t ∈ texts, tokenCount (instrContent description) + tokenCount t ≤ cfg)
    (hf : texts.length + 4 ≤ fuel) :
    (memoized_section_call cfg oracle table description fuel st texts).isSome := by
  obtain ⟨F, rfl⟩ : ∃ F, fuel = F + 1 := ⟨fuel - 1, by omega⟩
  show (memoized_section_call cfg oracle table description (Nat.succ F) st texts).isSome
  rw [memoized_section_call.eq_2]
  rcases hsel : select_summary st.db table (argHash texts) with e | o
  · simp
  rcases o with _ | c
  · have hgen : (generate_summary cfg oracle table description F st texts).isSome := by
      obtain ⟨G, rfl⟩ : ∃ G, F = G + 1 := ⟨F - 1, by omega⟩
      show (generate_summary cfg oracle table description (Nat.succ G) st texts).isSome
      rw [generate_summary.eq_2]
      rcases hov : (split_message_into_sections cfg (mkMessages description texts)).2
        with _ | ⟨s, rest⟩
      · simp
      · have hsub : (s :: rest).Sublist (texts.map (fun t => ⟨"user", pyStrip t⟩)) := by
          have h := overflow_sublist_tail cfg ⟨"user", instrContent description⟩
            (texts.map (fun t => ⟨"user", pyStrip t⟩)) h1
          rw [show ((⟨"user", instrContent description⟩ : Message) ::
            texts.map (fun t => ⟨"user", pyStrip t⟩)) = mkMessages description texts
            from rfl] at h
          rwa [hov] at h
        have hmem : ∀ m ∈ s :: rest,
            tokenCount (instrContent description) + tokenCount m.content ≤ cfg := by
          intro m hm
          obtain ⟨t, ht, rfl⟩ := List.mem_map.mp (hsub.subset hm)
          have hb := h2 t ht
          show tokenCount (instrContent description) + tokenCount (pyStrip t) ≤ cfg
          rwa [tokenCount_pyStrip]
        have hlen : (s :: rest).length + 2 ≤ G := by
          have h5 := hsub.length_le
          rw [List.length_map] at h5
          omega
        have hproc := process_isSome cfg oracle table description h1 (s :: rest) G
          (generate_response oracle st
            (split_message_into_sections cfg (mkMessages description texts)).1).2
          hmem hlen
        obtain ⟨pr, hpr⟩ := Option.isSome_iff_exists.mp hproc
        rcases pr with ⟨e, st2⟩ | st2 <;> simp [hpr]
    obtain ⟨gr, hgr⟩ := Option.isSome_iff_exists.mp hgen
    rw [hgr]
    obtain ⟨result, st1⟩ := gr
    by_cases hres : result = ""
    · simp [hres]
    · simp only [hres, if_neg hres, ite_false]
      rcases hins : insert_hash_summary st1.db table (argHash texts) result with e | db1 <;>
        simp [hins]
  · simp

/-! ## Claim C6 -/

theorem c6_select_miss (log : List (List Message × String)) :
    select_summary (⟨relato_only_db, log⟩ : SMState).db "relato"
      (argHash ["w1 w2"]) = .ok none := rfl

theorem c6_overflow :
    (split_message_into_sections 8 (mkMessages "D" ["w1 w2"])).2 =
      [⟨"user", "w1 w2"⟩] := by decide

theorem c6_cycle (oracle : Oracle) (p : Nat)
    (h : ∀ log', memoized_section_call 8 oracle "relato" "D" p
      ⟨relato_only_db, log'⟩ ["w1 w2"] = none) :
    ∀ log, memoized_section_call 8 oracle "relato" "D" (p + 3)
      ⟨relato_only_db, log⟩ ["w1 w2"] = none := by
  intro log
  have hgen : generate_summary 8 oracle "relato" "D" (Nat.succ (p + 1))
      ⟨relato_only_db, log⟩ ["w1 w2"] = none := by
    rw [generate_summary.eq_2, c6_overflow]
    rcases hoc : oracle (split_message_into_sections 8 (mkMessages "D" ["w1 w2"])).1
      with u | sres
    all_goals
      simp only [generate_response, hoc]
      rw [show p + 1 = Nat.succ p from rfl, process_remaining_sections.eq_3]
      simp only [h]
  show memoized_section_call 8 oracle "relato" "D" (Nat.succ (p + 2))
    ⟨relato_only_db, log⟩ ["w1 w2"] = none
  rw [memoized_section_call.eq_2, c6_select_miss, hgen]

theorem C6_cex_base0 (oracle : Oracle) (log : List (List Message × String)) :
    memoized_section_call 8 oracle "relato" "D" 0 ⟨relato_only_db, log⟩ ["w1 w2"] =
      none := rfl

theorem C6_cex_base1 (oracle : Oracle) (log : List (List Message × String)) :
    memoized_section_call 8 oracle "relato" "D" 1 ⟨relato_only_db, log⟩ ["w1 w2"] =
      none := by
  show memoized_section_call 8 oracle "relato" "D" (Nat.succ 0)
    ⟨relato_only_db, log⟩ ["w1 w2"] = none
  rw [memoized_section_call.eq_2, c6_select_miss, generate_summary.eq_1]

theorem C6_cex_base2 (oracle : Oracle) (log : List (List Message × String)) :
    memoized_section_call 8 oracle "relato" "D" 2 ⟨relato_only_db, log⟩ ["w1 w2"] =
      none := by
  have hgen : generate_summary 8 oracle "relato" "D" (Nat.succ 0)
      ⟨relato_only_db, log⟩ ["w1 w2"] = none := by
    rw [generate_summary.eq_2, c6_overflow]
    rcases hoc : oracle (split_message_into_sections 8 (mkMessages "D" ["w1 w2"])).1
      with u | sres
    all_goals
      simp only [generate_response, hoc]
      rw [process_remaining_sections.eq_2]
  show memoized_section_call 8 oracle "relato" "D" (Nat.succ 1)
    ⟨relato_only_db, log⟩ ["w1 w2"] = none
  rw [memoized_section_call.eq_2, c6_select_miss, hgen]

/-- C6 counterexample: with the instruction taking 7 words and the budget 8,
the single 2-word fragment `w1 w2` overflows and every recursive call
receives exactly the same singleton fragment set again — the recursion never
terminates, refuting both "every recursive call operates on a strictly
smaller fragment set" and "termination holds even when a single fragment's
word count alone exceeds the token budget". -/
theorem C6_counterexample : oversized_call_diverges := by
  intro oracle fuel
  induction fuel using Nat.strong_induction_on with
  | _ fuel ih =>
    rcases fuel with _ | fuel1
    · intro log; exact C6_cex_base0 oracle log
    rcases fuel1 with _ | fuel2
    · intro log; exact C6_cex_base1 oracle log
    rcases fuel2 with _ | p
    · intro log; exact C6_cex_base2 oracle log
    · exact c6_cycle oracle p (fun log' => ih p (by omega) log')

/-- C6 amended: the overflow recursion terminates (within fuel
`texts.length + 4`, i.e. recursion depth two) provided the instruction fits
the budget and every fragment's word count plus the instruction's word count
fits as well.  Each recursive call receives a single overflow fragment — not
a strictly smaller fragment set — so when a fragment together with the
instruction exceeds the budget the recursion does not terminate
(`C6_counterexample`). -/
theorem C6_amended (cfg : Nat) (oracle : Oracle) (table description : String)
    (st : SMState) (texts : List String)
    (h1 : tokenCount (instrContent description) ≤ cfg)
    (h2 : ∀ t ∈ texts, tokenCount (instrContent description) + tokenCount t ≤ cfg) :
    ∃ r, memoized_section_call cfg oracle table description
      (texts.length + 4) st texts = some r :=
  Option.isSome_iff_exists.mp
    (memoized_top_isSome cfg oracle table description (texts.length + 4) st texts
      h1 h2 (Nat.le_refl _))

/-- Witness for C6's amended statement: one in-budget fragment, fuel 5. -/
theorem C6_amended_witness :
    ∃ r, memoized_section_call 20 constant_oracle "relato" "D" 5
      ⟨initialized_db, []⟩ ["hello world"] = some r :=
  C6_amended 20 constant_oracle "relato" "D" ⟨initialized_db, []⟩ ["hello world"]
    (by decide) (by decide)

/-! ## Claim C2 -/

/-- C2 counterexample: budget 13, instruction of 7 words, two 6-word texts on
an initialized `relato` table.  The first text fits the primary batch, the
second overflows; the run makes two LLM calls producing `A` (primary) and `B`
(overflow recursion) yet returns the summary `""` — the recursive result `B`
is never combined into the returned summary (here even the primary result is
lost, because the overflow recursion's memoize-INSERT raises and
`_generate_summary`'s handler replaces the summary with the empty string). -/
theorem C2_counterexample :
    summary_and_responses
      (memoized_section_call 13 c2_oracle "relato" "D" 6 ⟨relato_only_db, []⟩
        ["a1 a2 a3 a4 a5 a6", "b1 b2 b3 b4 b5 b6"]) =
      some (some ("", ["A", "B"])) ∧
    ("" : String) ≠ "A" ++ "B" ∧ ("" : String) ≠ "A" := by
  exact ⟨by decide, by decide, by decide⟩

/-- C2 amended: the chunker partitions the fragments exactly once (no
duplication, no omission), and the overflow fragments are summarized only in
side-effecting recursive memoized calls: whatever `_generate_summary` returns
is either the primary batch's response alone or the empty string (when the
recursion raised) — recursive results are never combined into the returned
summary. -/
theorem C2_amended (cfg : Nat) (oracle : Oracle) (table description : String)
    (fuel : Nat) (st : SMState) (texts : List String) (r : String) (st' : SMState)
    (h : generate_summary cfg oracle table description fuel st texts = some (r, st')) :
    (r = "" ∨ r = (generate_response oracle st
        (split_message_into_sections cfg (mkMessages description texts)).1).1) ∧
    ∀ m : Message,
      (split_message_into_sections cfg (mkMessages description texts)).1.count m +
        (split_message_into_sections cfg (mkMessages description texts)).2.count m =
        (mkMessages description texts).count m := by
  refine ⟨?_, fun m => splitGo_count cfg (mkMessages description texts) 0 m⟩
  rcases fuel with _ | fuel'
  · rw [generate_summary.eq_1] at h
    exact absurd h (by simp)
  · rw [generate_summary.eq_2] at h
    rcases hov : (split_message_into_sections cfg (mkMessages description texts)).2
      with _ | ⟨s, rest⟩
    · rw [hov] at h
      right
      have h' : generate_response oracle st
          (split_message_into_sections cfg (mkMessages description texts)).1 =
          (r, st') := by simpa using h
      rw [h']
    · rw [hov] at h
      rcases hpr : process_remaining_sections cfg oracle table description fuel'
          (generate_response oracle st
            (split_message_into_sections cfg (mkMessages description texts)).1).2
          (s :: rest) with _ | pr
      · simp [hpr] at h
      · rcases pr with ⟨e, st2⟩ | st2
        · simp only [hpr] at h
          simp at h
          exact Or.inl h.1.symm
        · simp only [hpr] at h
          simp at h
          exact Or.inr h.1.symm

/-- Witness for C2's amended statement on a one-text prompt with no
overflow: the returned summary is the primary response. -/
theorem C2_amended_witness :
    ("A" : String) = "" ∨ ("A" : String) =
      (generate_response constant_oracle ⟨initialized_db, []⟩
        (split_message_into_sections 16385 (mkMessages "D" ["x"])).1).1 :=
  (C2_amended 16385 constant_oracle "relato" "D" 1 ⟨initialized_db, []⟩ ["x"] "A"
    ⟨initialized_db, [(mkMessages "D" ["x"], "A")]⟩ (by decide)).1

/-! ## Claim C5 -/

/-- C5 counterexample: on an initialized database holding one article, with a
working LLM, the run of `synthesize_content` returns an EMPTY list of
summaries — the `relato` section's storage failure (the memoize INSERT
violating the NOT NULL prompt column) is caught by the single handler wrapped
around the whole loop, so none of the seven section kinds yields a summary
and the remaining six are never processed. -/
theorem C5_counterexample :
    (synthesize_content 16385 constant_oracle 5 ⟨c3_db, []⟩).map
      (fun out => out.1.length) = some 0 ∧
    section_kinds.length = 7 := by
  exact ⟨by decide, by decide⟩

/-- C5 amended: `synthesize_content` always returns its (possibly empty)
list of summaries rather than raising — any failure is caught by the handler
around the loop — but that handler wraps the WHOLE seven-section loop, so
processing stops at the first failure: at most one section kind contributes a
summary (the mis-called `insert_summary` raises `TypeError` right after the
first successful section, and any earlier exception ends the loop with an
empty list). -/
theorem C5_amended (oracle : Oracle) (db : DB) :
    ∃ out, synthesize_content 16385 oracle ((fetch_cleaned_texts db).length + 4)
      ⟨db, []⟩ = some out ∧ out.1.length ≤ 1 := by
  have h12 : tokenCount (instrContent (sectionDescription "relato")) = 12 := by
    decide
  have htop := memoized_top_isSome 16385 oracle "relato" (sectionDescription "relato")
    ((fetch_cleaned_texts db).length + 4) ⟨db, []⟩
    ((fetch_cleaned_texts db).map (fun s => (⟨s.data.take 1⟩ : String)))
    (by rw [h12]; omega)
    (by
      intro t ht
      obtain ⟨s, hs, rfl⟩ := List.mem_map.mp ht
      have hb := tokenCount_take_one s
      omega)
    (by simp)
  obtain ⟨r, hr⟩ := Option.isSome_iff_exists.mp htop
  rcases r with ⟨e, st1⟩ | ⟨s, st1⟩
  · refine ⟨([], st1), ?_, by simp⟩
    simp [synthesize_content, section_kinds, synth_loop, hr]
  · refine ⟨([s], st1), ?_, by simp⟩
    simp [synthesize_content, section_kinds, synth_loop, hr,
      call_insert_summary_two_args]

/-! ## Claim C3 -/

/-- C3: on an initialized database (NOT NULL `prompt` column) with one
stored article and a working LLM, the first run of `synthesize_content`
makes one LLM call and leaves the database UNCHANGED — the memoize INSERT
omits the `prompt` column and raises, so nothing is ever cached — and a
second run over the identical state makes a second LLM call instead of the
zero additional calls the claim promises. -/
theorem C3_second_run_repeats_llm_calls :
    synthesize_content 16385 constant_oracle 5 ⟨c3_db, []⟩ =
      some ([], ⟨c3_db, [(mkMessages (sectionDescription "relato") ["A"], "A")]⟩) ∧
    (synthesize_content 16385 constant_oracle 5
        ⟨c3_db, [(mkMessages (sectionDescription "relato") ["A"], "A")]⟩).map
      (fun out => out.2.llmLog.length) = some 2 := by
  exact ⟨by decide, by decide⟩
